import Mathlib

set_option maxRecDepth 8192
set_option maxHeartbeats 1000000

/-!
Shallow embedding of the markdown image base64 conversion pipeline
(src/convert/imageUtils.ts, src/convert/markdownProcessor.ts,
src/convert/converter.ts), together with proofs about the claims of
the specification.  File bytes are modelled as lists of naturals below
256, the file system as a partial map from absolute paths to bytes,
and the fallible steps of the orchestrator as `Except` values.
-/

/-- Bytes of a file, each below 256. -/
abbrev ByteSeq := List Nat

/-- Abstract read-only file system: an absolute path is mapped to the bytes
of the readable file stored there, or to none when no readable file exists
at that path. -/
abbrev FileSys := String → Option ByteSeq

/-! ## Posix path model (the subset of path.* used by the source) -/

/-- Split a character list on slashes. -/
def splitSlash : List Char → List (List Char)
  | [] => [[]]
  | c :: cs =>
    if c = '/' then [] :: splitSlash cs
    else
      match splitSlash cs with
      | [] => [[c]]
      | s :: rest => (c :: s) :: rest

/-- Normalization pass over path segments: empty and dot segments vanish,
a dot-dot segment removes the previous segment.  The accumulator holds the
already-kept segments in reverse order. -/
def normSegs : List (List Char) → List (List Char) → List (List Char)
  | acc, [] => acc.reverse
  | acc, s :: ss =>
    if s = [] ∨ s = ['.'] then normSegs acc ss
    else if s = ['.', '.'] then normSegs (acc.drop 1) ss
    else normSegs (s :: acc) ss

/-- Rebuild an absolute path from segments, one leading slash per segment. -/
def joinSegs (segs : List (List Char)) : List Char :=
  segs.foldl (fun acc s => acc ++ '/' :: s) []

/-- Normalization of an absolute posix path as performed by path.resolve:
collapse empty and dot segments and resolve dot-dot segments. -/
def normalizeAbs (cs : List Char) : List Char :=
  match joinSegs (normSegs [] (splitSlash cs)) with
  | [] => ['/']
  | l => l

/-- Model of posix path.isAbsolute. -/
def isAbsolutePath (p : String) : Bool :=
  match p.data with
  | [] => false
  | c :: _ => c = '/'

/-- Model of path.resolve dir p for an absolute directory dir: join with a
slash and normalize. -/
def pathResolve (dir p : String) : String :=
  ⟨normalizeAbs (dir.data ++ '/' :: p.data)⟩

/-- Model of posix path.dirname for paths without trailing slashes. -/
def dirname (p : String) : String :=
  match p.data.reverse.dropWhile (fun c => c != '/') with
  | [] => ("." : String)
  | _ :: restRev =>
    match restRev with
    | [] => ("/" : String)
    | _ :: _ => ⟨restRev.reverse⟩

/-- Model of posix path.extname: the suffix of the last path component from
its last dot; empty when the component has no dot or starts with its only
dot. -/
def extname (p : String) : String :=
  match (p.data.reverse.takeWhile (fun c => c != '/')).dropWhile (fun c => c != '.') with
  | [] => ("" : String)
  | _ :: restRev =>
    if restRev = [] then ("" : String)
    else ⟨'.' :: ((p.data.reverse.takeWhile (fun c => c != '/')).takeWhile (fun c => c != '.')).reverse⟩

/-- Model of JavaScript String.prototype.toLowerCase on ascii data. -/
def lowerStr (s : String) : String := ⟨s.data.map Char.toLower⟩

/-! ## Image codec (src/convert/imageUtils.ts) -/

/-- MIME type mappings for supported image formats (MIME_TYPES). -/
def MIME_TYPES : List (String × String) :=
  [(".jpg", "image/jpeg"), (".jpeg", "image/jpeg"), (".png", "image/png"),
   (".gif", "image/gif"), (".svg", "image/svg+xml"), (".webp", "image/webp"),
   (".bmp", "image/bmp"), (".ico", "image/x-icon"), (".tiff", "image/tiff"),
   (".tif", "image/tiff")]

/-- Supported image file extensions of the codec (the keys of MIME_TYPES). -/
def SUPPORTED_IMAGE_EXTENSIONS : List String := MIME_TYPES.map Prod.fst

/-- isImageFile: the lowercased extension is a key of MIME_TYPES. -/
def isImageFile (filePath : String) : Bool :=
  (MIME_TYPES.lookup (lowerStr (extname filePath))).isSome

/-- getImageMimeType: MIME_TYPES at the lowercased extension, or none. -/
def getImageMimeType (filePath : String) : Option String :=
  MIME_TYPES.lookup (lowerStr (extname filePath))

/-- The base64 alphabet in index order. -/
def base64Chars : List Char :=
  ("ABCDEFGHIJKLMNOPQRSTUVWXYZabcdefghijklmnopqrstuvwxyz0123456789+/").data

/-- Character of a six-bit value. -/
def sextetChar (n : Nat) : Char := base64Chars.getD n 'A'

/-- Base64 encoding of a byte sequence as produced by
Buffer.toString with base64 encoding, with padding. -/
def base64Encode : ByteSeq → List Char
  | [] => []
  | [b1] => [sextetChar (b1 / 4), sextetChar (b1 % 4 * 16), '=', '=']
  | [b1, b2] =>
    [sextetChar (b1 / 4), sextetChar (b1 % 4 * 16 + b2 / 16), sextetChar (b2 % 16 * 4), '=']
  | b1 :: b2 :: b3 :: rest =>
    sextetChar (b1 / 4) :: sextetChar (b1 % 4 * 16 + b2 / 16) ::
    sextetChar (b2 % 16 * 4 + b3 / 64) :: sextetChar (b3 % 64) :: base64Encode rest

/-- Index of a character in the base64 alphabet (length of the alphabet when
absent; only used on alphabet characters). -/
def sextetVal (c : Char) : Nat := base64Chars.findIdx (fun d => d == c)

/-- Base64 decoding of a padded character sequence back to bytes. -/
def base64Decode : List Char → ByteSeq
  | c1 :: c2 :: c3 :: c4 :: rest =>
    if c3 = '=' then [sextetVal c1 * 4 + sextetVal c2 / 16]
    else if c4 = '=' then
      [sextetVal c1 * 4 + sextetVal c2 / 16, sextetVal c2 % 16 * 16 + sextetVal c3 / 4]
    else
      (sextetVal c1 * 4 + sextetVal c2 / 16) ::
      (sextetVal c2 % 16 * 16 + sextetVal c3 / 4) ::
      (sextetVal c3 % 4 * 64 + sextetVal c4) :: base64Decode rest
  | _ => []

/-- generateDataUri: the data URI built from raw bytes and a MIME type. -/
def generateDataUri (imageBuffer : ByteSeq) (mimeType : String) : String :=
  ("data:" ++ mimeType ++ ";base64," ++ (⟨base64Encode imageBuffer⟩ : String))

/-- generateDataUriFromPath: data URI from bytes and a file path, none when
the extension is unsupported. -/
def generateDataUriFromPath (imageBuffer : ByteSeq) (filePath : String) : Option String :=
  match getImageMimeType filePath with
  | none => none
  | some mimeType => some (generateDataUri imageBuffer mimeType)

/-- Result of one image conversion (ImageConversionResult). -/
structure ImageConversionResult where
  success : Bool
  dataUri : Option String := none
  error : Option String := none
deriving DecidableEq

/-- convertImageToBase64 over the abstract file system: existence and
readability check first, then the supported-extension check, then read and
data-URI generation. -/
def convertImageToBase64 (fs : FileSys) (imagePath : String) : ImageConversionResult :=
  match fs imagePath with
  | none =>
    { success := false, error := some ("Image file not found or not readable: " ++ imagePath) }
  | some imageBuffer =>
    if !isImageFile imagePath then
      { success := false, error := some ("Unsupported image format: " ++ imagePath) }
    else
      match generateDataUriFromPath imageBuffer imagePath with
      | none =>
        { success := false, error := some ("Failed to generate data URI for: " ++ imagePath) }
      | some dataUri => { success := true, dataUri := some dataUri }

/-! ## Markdown reference extraction (src/convert/markdownProcessor.ts) -/

/-- One raw match of the image regular expression: the whole matched text,
the alt capture and the path capture. -/
structure ImgMatch where
  full : String
  alt : String
  path : String
deriving DecidableEq

/-- One attempt of the image regular expression at the start of the input:
an exclamation mark, a bracketed alt of zero or more characters other than
a closing bracket, and a parenthesized nonempty path of characters other
than a closing parenthesis; yields the match and the remaining input. -/
def tryImg : List Char → Option (ImgMatch × List Char)
  | [] => none
  | [_] => none
  | c1 :: c2 :: rest =>
    if c1 = '!' ∧ c2 = '[' then
      match rest.dropWhile (fun c => c != ']') with
      | [] => none
      | [_] => none
      | _ :: c3 :: r3 =>
        if c3 = '(' then
          match r3.takeWhile (fun c => c != ')'), r3.dropWhile (fun c => c != ')') with
          | p :: ps, _ :: r5 =>
            some ({ full := ⟨'!' :: '[' :: (rest.takeWhile (fun c => c != ']') ++
                            ']' :: '(' :: ((p :: ps) ++ [')']))⟩,
                    alt := ⟨rest.takeWhile (fun c => c != ']')⟩,
                    path := ⟨p :: ps⟩ }, r5)
          | _, _ => none
        else none
    else none

/-- Global scan of the image regular expression: attempt a match at every
position, emit matches in first-occurrence order and resume after each
match.  The fuel argument bounds the number of scan steps; every step
consumes at least one character, so the input length is enough fuel. -/
def scanImagesAux : Nat → List Char → List ImgMatch
  | 0, _ => []
  | _, [] => []
  | fuel + 1, c :: cs =>
    match tryImg (c :: cs) with
    | some (m, rest) => m :: scanImagesAux fuel rest
    | none => scanImagesAux fuel cs

/-- All matches of the image regular expression in a document, in order. -/
def extractMatches (content : String) : List ImgMatch :=
  scanImagesAux content.data.length content.data

/-- isRemoteImage: the path starts with the http or https scheme. -/
def isRemoteImage (imagePath : String) : Bool :=
  ("http://").data.isPrefixOf imagePath.data || ("https://").data.isPrefixOf imagePath.data

/-- cleanImagePath: strip the query string and fragment suffixes. -/
def cleanImagePath (imagePath : String) : String :=
  ⟨(imagePath.data.takeWhile (fun c => c != '?')).takeWhile (fun c => c != '#')⟩

/-- The extension whitelist hard-coded inside isSupportedImageFormat. -/
def supportedFormatExtensions : List String :=
  [".jpg", ".jpeg", ".png", ".gif", ".svg", ".webp", ".bmp"]

/-- isSupportedImageFormat: the cleaned, lowercased path ends with one of
seven extensions. -/
def isSupportedImageFormat (imagePath : String) : Bool :=
  supportedFormatExtensions.any
    (fun ext => ext.data.isSuffixOf (lowerStr (cleanImagePath imagePath)).data)

/-- A parsed image occurrence (IImageReference). -/
structure IImageReference where
  originalMarkdown : String
  imagePath : String
  absoluteImagePath : String
  altText : String
deriving DecidableEq

/-- The absolute-path computation shared by the extractor and the rewriter:
an absolute image path is used verbatim, a relative one is resolved against
the directory of the markdown file. -/
def resolveImagePath (markdownDir imagePath : String) : String :=
  if isAbsolutePath imagePath then imagePath else pathResolve markdownDir imagePath

/-- extractImageReferences: every regex match with remote links skipped and
local paths resolved against the document directory. -/
def extractImageReferences (content markdownFilePath : String) : List IImageReference :=
  (extractMatches content).filterMap fun m =>
    if isRemoteImage m.path then none
    else some { originalMarkdown := m.full, imagePath := m.path,
                absoluteImagePath := resolveImagePath (dirname markdownFilePath) m.path,
                altText := m.alt }

/-! ## First-occurrence string replacement (JavaScript String.replace) -/

/-- Earliest decomposition of the haystack around the pattern, when the
pattern occurs in it. -/
def firstSplit (pat : List Char) : List Char → Option (List Char × List Char)
  | [] => if pat.isPrefixOf ([] : List Char) then some ([], []) else none
  | c :: cs =>
    if pat.isPrefixOf (c :: cs) then some ([], (c :: cs).drop pat.length)
    else (firstSplit pat cs).map (fun p => (c :: p.1, p.2))

/-- GetSubstitution of ECMAScript String.prototype.replace with a string
pattern: a dollar followed by a dollar, an ampersand, a backtick or an
apostrophe in the replacement expands to a literal dollar, the matched
text, the text before the match and the text after the match. -/
def expandDollar (matched before after : List Char) : List Char → List Char
  | [] => []
  | [c] => [c]
  | c :: d :: rest =>
    if c = '$' then
      if d = '$' then '$' :: expandDollar matched before after rest
      else if d = '&' then matched ++ expandDollar matched before after rest
      else if d = Char.ofNat 96 then before ++ expandDollar matched before after rest
      else if d = Char.ofNat 39 then after ++ expandDollar matched before after rest
      else c :: expandDollar matched before after (d :: rest)
    else c :: expandDollar matched before after (d :: rest)

/-- JavaScript String.prototype.replace with a string pattern and a string
replacement: only the first occurrence is replaced, and dollar patterns in
the replacement are expanded. -/
def jsReplaceFirst (s pat repl : String) : String :=
  match firstSplit pat.data s.data with
  | none => s
  | some (before, after) => ⟨before ++ expandDollar pat.data before after repl.data ++ after⟩

/-! ## Markdown rewriter (convertMarkdownImages of markdownProcessor.ts) -/

/-- Per-document conversion outcome (MarkdownConversionResult). -/
structure MarkdownConversionResult where
  content : String
  convertedImages : Nat
  skippedImages : Nat
  warnings : List String
  errors : List String
deriving DecidableEq

/-- One iteration of the reference loop of convertMarkdownImages: skip a
remote link with a warning, skip an unsupported format with a warning, or
invoke the codec, substituting the first occurrence of the matched snippet
on success and warning on failure. -/
def processImageMatch (fs : FileSys) (markdownDir : String)
    (st : MarkdownConversionResult) (m : ImgMatch) : MarkdownConversionResult :=
  if isRemoteImage m.path then
    { st with skippedImages := st.skippedImages + 1,
              warnings := st.warnings ++ ["Skipped remote image: " ++ m.path] }
  else if !isSupportedImageFormat m.path then
    { st with skippedImages := st.skippedImages + 1,
              warnings := st.warnings ++ ["Skipped unsupported image format: " ++ m.path] }
  else
    match convertImageToBase64 fs (resolveImagePath markdownDir m.path) with
    | { success := true, dataUri := some d, error := _ } =>
      { st with
        content := jsReplaceFirst st.content m.full ("![" ++ m.alt ++ "](" ++ d ++ ")"),
        convertedImages := st.convertedImages + 1 }
    | r =>
      { st with skippedImages := st.skippedImages + 1,
                warnings := st.warnings ++
                  ["Failed to convert image: " ++ m.path ++ " - " ++ r.error.getD ("undefined")] }

/-- convertMarkdownImages: collect every image match of the document, then
process the matches in first-occurrence order. -/
def convertMarkdownImages (fs : FileSys) (content markdownFilePath : String) :
    MarkdownConversionResult :=
  (extractMatches content).foldl (processImageMatch fs (dirname markdownFilePath))
    { content := content, convertedImages := 0, skippedImages := 0,
      warnings := [], errors := [] }

/-! ## Conversion orchestrator (src/convert/converter.ts) -/

/-- A discovered markdown file (IMarkdownFile). -/
structure IMarkdownFile where
  relativePath : String
  absolutePath : String
  content : String
deriving DecidableEq

/-- The aggregate result of a run (IConvertResult). -/
structure IConvertResult where
  totalFiles : Nat
  convertedImages : Nat
  skippedImages : Nat
  warnings : List String
  errors : List String
deriving DecidableEq

/-- Abstract run environment of MarkdownImageConverter.convert: the scanner
outcome, the output-directory preparation outcome, and the per-file rewrite
and write steps, each of which may throw. -/
structure ConvEnv where
  sourceDir : String
  scan : Except String (List IMarkdownFile)
  createOutputDirectory : Except String Unit
  rewrite : IMarkdownFile → Except String MarkdownConversionResult
  write : String → String → Except String Unit

/-- processMarkdownFile of converter.ts: rewrite, accumulate the document
statistics into the aggregate, then write.  A write failure is recorded and
rethrown, and the enclosing catch records one more message and rethrows;
a rewrite failure is recorded by the enclosing catch and rethrown. -/
def processMarkdownFile (env : ConvEnv) (file : IMarkdownFile) (result : IConvertResult) :
    IConvertResult × Except String MarkdownConversionResult :=
  match env.rewrite file with
  | Except.error e =>
    ({ result with errors := result.errors ++
        ["Error processing file " ++ file.relativePath ++ ": " ++ e] }, Except.error e)
  | Except.ok conversionResult =>
    let acc : IConvertResult := { result with
      convertedImages := result.convertedImages + conversionResult.convertedImages,
      skippedImages := result.skippedImages + conversionResult.skippedImages,
      warnings := result.warnings ++ conversionResult.warnings,
      errors := result.errors ++ conversionResult.errors }
    match env.write file.relativePath conversionResult.content with
    | Except.error e =>
      ({ acc with errors := acc.errors ++
          ["Failed to write converted file " ++ file.relativePath ++ ": " ++ e,
           "Error processing file " ++ file.relativePath ++ ": " ++ e] }, Except.error e)
    | Except.ok _ => (acc, Except.ok conversionResult)

/-- The per-file loop of MarkdownImageConverter.convert: a failing file
contributes one more error message and the loop continues with the rest. -/
def convertLoop (env : ConvEnv) : List IMarkdownFile → IConvertResult → IConvertResult
  | [], result => result
  | file :: rest, result =>
    match processMarkdownFile env file result with
    | (r, Except.ok _) => convertLoop env rest r
    | (r, Except.error e) =>
      convertLoop env rest
        { r with errors := r.errors ++
            ["Failed to process file " ++ file.relativePath ++ ": " ++ e] }

/-- MarkdownImageConverter.convert: scan, handle the empty scan, prepare the
output directory, then run the per-file loop over every discovered file. -/
def convert (env : ConvEnv) : IConvertResult :=
  match env.scan with
  | Except.error e =>
    { totalFiles := 0, convertedImages := 0, skippedImages := 0, warnings := [],
      errors := ["Failed to scan markdown files: " ++ e] }
  | Except.ok markdownFiles =>
    if markdownFiles.length = 0 then
      { totalFiles := markdownFiles.length, convertedImages := 0, skippedImages := 0,
        warnings := ["No markdown files found in source directory: " ++ env.sourceDir],
        errors := [] }
    else
      match env.createOutputDirectory with
      | Except.error e =>
        { totalFiles := markdownFiles.length, convertedImages := 0, skippedImages := 0,
          warnings := [], errors := ["Failed to create output directory: " ++ e] }
      | Except.ok _ =>
        convertLoop env markdownFiles
          { totalFiles := markdownFiles.length, convertedImages := 0, skippedImages := 0,
            warnings := [], errors := [] }

/-! ## Test fixtures -/

/-- The empty file system. -/
def fsEmpty : FileSys := fun _ => none

/-! ## Substitution-shape machinery -/

/-- One data-URI substitution: an image-syntax span is replaced by its
data-URI form with the same alt text, all other bytes unchanged. -/
inductive IsImageSubst : String → String → Prop
  | mk (before alt path mime payload after : String) :
      IsImageSubst (before ++ ("![" ++ alt ++ "](" ++ path ++ ")") ++ after)
        (before ++ ("![" ++ alt ++ "](" ++ ("data:" ++ mime ++ ";base64," ++ payload) ++ ")") ++ after)

/-- Zero or more data-URI substitutions. -/
inductive SubstChain : String → String → Prop
  | refl (s : String) : SubstChain s s
  | step {a b c : String} : IsImageSubst a b → SubstChain b c → SubstChain a c

/-! ## Test fixtures for the orchestrator -/

/-- A discovered markdown file fixture. -/
def fileA : IMarkdownFile :=
  { relativePath := "a.md", absolutePath := "/s/a.md", content := "c" }

/-- Environment whose rewrite step succeeds with one converted image and
whose write step always throws. -/
def envWriteFails : ConvEnv :=
  { sourceDir := "/s",
    scan := Except.ok [fileA],
    createOutputDirectory := Except.ok (),
    rewrite := fun _ => Except.ok
      { content := "x", convertedImages := 1, skippedImages := 0, warnings := [], errors := [] },
    write := fun _ _ => Except.error ("disk full") }

/-- File system holding one zero-byte png at the resolved path of a local
reference. -/
def fsPngA : FileSys := fun p => if p = "/d/a.png" then some [] else none

/-- File system holding one zero-byte icon file. -/
def fsIco : FileSys := fun p => if p = "/d/img.ico" then some [] else none

/-- File system holding a file at the local path that the resolver produces
for an ftp-scheme reference. -/
def fsFtp : FileSys := fun p => if p = "/d/ftp:/h/a.png" then some [] else none

/-- File system holding one png at the cleaned path only. -/
def fsCleanPng : FileSys := fun p => if p = "/d/img.png" then some [7] else none


/-! ## Base64 lemmas -/

theorem sextetVal_sextetChar {n : Nat} (h : n < 64) : sextetVal (sextetChar n) = n := by
  have step : ∀ m : Fin 64, sextetVal (sextetChar m.val) = m.val := by decide
  exact step ⟨n, h⟩

theorem sextetChar_ne_pad (n : Nat) (h : n < 64) : sextetChar n ≠ '=' := by
  have step : ∀ m : Fin 64, sextetChar m.val ≠ '=' := by decide
  exact step ⟨n, h⟩

theorem sextetChar_ne_dollar (n : Nat) : sextetChar n ≠ '$' := by
  by_cases h : n < 64
  · have step : ∀ m : Fin 64, sextetChar m.val ≠ '$' := by decide
    exact step ⟨n, h⟩
  · unfold sextetChar
    rw [List.getD_eq_default]
    · decide
    · have hl : base64Chars.length = 64 := by decide
      omega

/-- Base64 round trip: decoding an encoded byte sequence yields the bytes. -/
theorem base64_decode_encode (bs : ByteSeq) (hb : ∀ b ∈ bs, b < 256) :
    base64Decode (base64Encode bs) = bs := by
  have main : ∀ (n : Nat) (bs : ByteSeq), bs.length ≤ n → (∀ b ∈ bs, b < 256) →
      base64Decode (base64Encode bs) = bs := by
    intro n
    induction n with
    | zero =>
      intro bs hl _
      have hnil : bs = [] := List.eq_nil_of_length_eq_zero (Nat.le_zero.mp hl)
      subst hnil; rfl
    | succ n ih =>
      intro bs hl hb
      match bs with
      | [] => rfl
      | [b1] =>
        have h1 : b1 < 256 := hb b1 (by simp)
        simp only [base64Encode, base64Decode, if_pos]
        rw [sextetVal_sextetChar (by omega), sextetVal_sextetChar (by omega)]
        simp only [List.cons.injEq, and_true]
        omega
      | [b1, b2] =>
        have h1 : b1 < 256 := hb b1 (by simp)
        have h2 : b2 < 256 := hb b2 (by simp)
        simp only [base64Encode, base64Decode,
          if_neg (sextetChar_ne_pad (b2 % 16 * 4) (by omega)), if_pos]
        rw [sextetVal_sextetChar (by omega), sextetVal_sextetChar (by omega),
          sextetVal_sextetChar (by omega)]
        simp only [List.cons.injEq, and_true]
        omega
      | b1 :: b2 :: b3 :: rest =>
        have h1 : b1 < 256 := hb b1 (by simp)
        have h2 : b2 < 256 := hb b2 (by simp)
        have h3 : b3 < 256 := hb b3 (by simp)
        have hrest : base64Decode (base64Encode rest) = rest := by
          apply ih rest
          · simp only [List.length_cons] at hl; omega
          · intro b hbm; exact hb b (by simp [hbm])
        simp only [base64Encode, base64Decode,
          if_neg (sextetChar_ne_pad (b2 % 16 * 4 + b3 / 64) (by omega)),
          if_neg (sextetChar_ne_pad (b3 % 64) (by omega))]
        rw [sextetVal_sextetChar (by omega), sextetVal_sextetChar (by omega),
          sextetVal_sextetChar (by omega), sextetVal_sextetChar (by omega), hrest]
        simp only [List.cons.injEq, and_true]
        refine ⟨by omega, by omega, by omega⟩
  exact main bs.length bs le_rfl hb

/-- No character of a base64 encoding is a dollar sign. -/
theorem base64Encode_no_dollar (bs : ByteSeq) : '$' ∉ base64Encode bs := by
  have main : ∀ (n : Nat) (bs : ByteSeq), bs.length ≤ n → '$' ∉ base64Encode bs := by
    intro n
    induction n with
    | zero =>
      intro bs hl
      have hnil : bs = [] := List.eq_nil_of_length_eq_zero (Nat.le_zero.mp hl)
      subst hnil; simp [base64Encode]
    | succ n ih =>
      intro bs hl
      match bs with
      | [] => simp [base64Encode]
      | [b1] =>
        simp only [base64Encode, List.mem_cons, List.not_mem_nil, or_false]
        rintro (h | h | h | h)
        · exact sextetChar_ne_dollar _ h.symm
        · exact sextetChar_ne_dollar _ h.symm
        · exact absurd h (by decide)
        · exact absurd h (by decide)
      | [b1, b2] =>
        simp only [base64Encode, List.mem_cons, List.not_mem_nil, or_false]
        rintro (h | h | h | h)
        · exact sextetChar_ne_dollar _ h.symm
        · exact sextetChar_ne_dollar _ h.symm
        · exact sextetChar_ne_dollar _ h.symm
        · exact absurd h (by decide)
      | b1 :: b2 :: b3 :: rest =>
        have hrest : '$' ∉ base64Encode rest := by
          apply ih rest
          simp only [List.length_cons] at hl; omega
        simp only [base64Encode, List.mem_cons]
        rintro (h | h | h | h | h)
        · exact sextetChar_ne_dollar _ h.symm
        · exact sextetChar_ne_dollar _ h.symm
        · exact sextetChar_ne_dollar _ h.symm
        · exact sextetChar_ne_dollar _ h.symm
        · exact hrest h
  exact main bs.length bs le_rfl

/-! ## Replacement lemmas -/

/-- A successful first split decomposes the haystack around the pattern. -/
theorem firstSplit_some {pat : List Char} :
    ∀ {hay before after : List Char}, firstSplit pat hay = some (before, after) →
      hay = before ++ pat ++ after := by
  intro hay
  induction hay with
  | nil =>
    intro before after h
    simp only [firstSplit] at h
    split at h
    case isTrue hp =>
      have hpat : pat = [] := List.prefix_nil.mp (List.isPrefixOf_iff_prefix.mp hp)
      cases h
      simp [hpat]
    case isFalse => cases h
  | cons c cs ih =>
    intro before after h
    simp only [firstSplit] at h
    split at h
    case isTrue hp =>
      obtain ⟨t, ht⟩ := List.isPrefixOf_iff_prefix.mp hp
      cases h
      simp only [List.nil_append]
      conv_lhs => rw [← ht]
      rw [← ht, List.drop_left]
    case isFalse =>
      cases hfs : firstSplit pat cs with
      | none => rw [hfs] at h; cases h
      | some p =>
        obtain ⟨b2, a2⟩ := p
        rw [hfs] at h
        simp only [Option.map_some'] at h
        cases h
        simp only [List.cons_append]
        rw [← ih hfs]

/-- Dollar expansion is the identity on replacements without a dollar. -/
theorem expandDollar_no_dollar (matched before after : List Char) :
    ∀ repl : List Char, '$' ∉ repl → expandDollar matched before after repl = repl := by
  intro repl
  induction repl with
  | nil => intro _; rfl
  | cons c rest ih =>
    intro h
    have hc : c ≠ '$' := fun hcc => h (hcc ▸ List.mem_cons_self c rest)
    have hrest : '$' ∉ rest := fun hr => h (List.mem_cons_of_mem c hr)
    cases rest with
    | nil => simp [expandDollar]
    | cons d rest2 =>
      simp only [expandDollar, if_neg hc]
      exact congrArg (c :: ·) (ih hrest)

/-- jsReplaceFirst with a dollar-free replacement: either the pattern does
not occur and the string is unchanged, or the earliest occurrence of the
pattern is replaced literally. -/
theorem jsReplaceFirst_no_dollar (s pat repl : String) (h : '$' ∉ repl.data) :
    jsReplaceFirst s pat repl = s ∨
    ∃ before after : List Char,
      s.data = before ++ pat.data ++ after ∧
      (jsReplaceFirst s pat repl).data = before ++ repl.data ++ after := by
  unfold jsReplaceFirst
  cases hfs : firstSplit pat.data s.data with
  | none => exact Or.inl rfl
  | some p =>
    obtain ⟨before, after⟩ := p
    refine Or.inr ⟨before, after, firstSplit_some hfs, ?_⟩
    simp [expandDollar_no_dollar _ _ _ _ h]

/-! ## Lookup helper -/

/-- A successful association-list lookup returns one of the values. -/
theorem lookup_mem_snd {α β : Type} [BEq α] :
    ∀ (l : List (α × β)) (k : α) (v : β), l.lookup k = some v → v ∈ l.map Prod.snd := by
  intro l
  induction l with
  | nil => intro k v h; cases h
  | cons p t ih =>
    intro k v h
    obtain ⟨a, b⟩ := p
    simp only [List.lookup] at h
    split at h
    · cases h; simp
    · simp only [List.map_cons, List.mem_cons]
      exact Or.inr (ih k v h)

/-- The MIME type of a supported path carries no dollar character. -/
theorem getImageMimeType_no_dollar {p mime : String} (h : getImageMimeType p = some mime) :
    '$' ∉ mime.data := by
  have hmem : mime ∈ MIME_TYPES.map Prod.snd := lookup_mem_snd MIME_TYPES _ mime h
  have : ∀ v ∈ MIME_TYPES.map Prod.snd, '$' ∉ v.data := by decide
  exact this mime hmem

/-! ## Extractor lemmas -/



/-- A successful match attempt yields a match whose full text is the image
syntax rebuilt from its alt and path, whose alt characters come from the
input, and whose remaining input is a subset of the input. -/
theorem tryImg_some :
    ∀ {l rest : List Char} {m : ImgMatch}, tryImg l = some (m, rest) →
      m.full = "![" ++ m.alt ++ "](" ++ m.path ++ ")" ∧ m.alt.data ⊆ l ∧ rest ⊆ l := by
  intro l rest m h
  match l with
  | [] => simp [tryImg] at h
  | [c] => simp [tryImg] at h
  | c1 :: c2 :: cs =>
    simp only [tryImg] at h
    split at h
    case isFalse => cases h
    case isTrue hcc =>
      split at h
      case h_1 => cases h
      case h_2 => cases h
      case h_3 x c3 r3 hdw =>
        split at h
        case isFalse => cases h
        case isTrue hc3 =>
          split at h
          case h_2 => cases h
          case h_1 _ _ p ps hd r5 htk hdr =>
            cases h
            refine ⟨?_, ?_, ?_⟩
            · apply String.ext
              simp only [String.data_append]
              simp [List.append_assoc]
            · intro a ha
              have h1 : a ∈ cs := (List.takeWhile_sublist _).subset ha
              exact List.mem_cons_of_mem _ (List.mem_cons_of_mem _ h1)
            · intro a ha
              have h5 : a ∈ hd :: rest := List.mem_cons_of_mem _ ha
              rw [← hdr] at h5
              have h6 : a ∈ r3 := (List.dropWhile_sublist _).subset h5
              have h7 : a ∈ x :: c3 :: r3 :=
                List.mem_cons_of_mem _ (List.mem_cons_of_mem _ h6)
              rw [← hdw] at h7
              have h8 : a ∈ cs := (List.dropWhile_sublist _).subset h7
              exact List.mem_cons_of_mem _ (List.mem_cons_of_mem _ h8)

/-- Every match found by the scanner has the rebuilt-full-text shape and an
alt whose characters all occur in the scanned input. -/
theorem scanImagesAux_facts :
    ∀ (fuel : Nat) (l : List Char) (m : ImgMatch), m ∈ scanImagesAux fuel l →
      m.full = "![" ++ m.alt ++ "](" ++ m.path ++ ")" ∧ m.alt.data ⊆ l := by
  intro fuel
  induction fuel with
  | zero => intro l m h; simp [scanImagesAux] at h
  | succ fuel ih =>
    intro l m h
    cases l with
    | nil => simp [scanImagesAux] at h
    | cons c cs =>
      simp only [scanImagesAux] at h
      cases htry : tryImg (c :: cs) with
      | none =>
        rw [htry] at h
        obtain ⟨h1, h2⟩ := ih cs m h
        exact ⟨h1, h2.trans (List.subset_cons_self c cs)⟩
      | some pr =>
        obtain ⟨m2, rest⟩ := pr
        rw [htry] at h
        rcases List.mem_cons.mp h with heq | hmem
        · subst heq
          exact ⟨(tryImg_some htry).1, (tryImg_some htry).2.1⟩
        · obtain ⟨h1, h2⟩ := ih rest m hmem
          exact ⟨h1, h2.trans (tryImg_some htry).2.2⟩

/-- Every match of a document has the rebuilt-full-text shape and an alt
whose characters occur in the document. -/
theorem extractMatches_facts {content : String} {m : ImgMatch}
    (h : m ∈ extractMatches content) :
    m.full = "![" ++ m.alt ++ "](" ++ m.path ++ ")" ∧ m.alt.data ⊆ content.data :=
  scanImagesAux_facts content.data.length content.data m h


/-! ## Rewriter step lemmas -/

/-- A remote reference is skipped with the remote warning. -/
theorem processImageMatch_remote (fs : FileSys) (dir : String)
    (st : MarkdownConversionResult) (m : ImgMatch) (h : isRemoteImage m.path = true) :
    processImageMatch fs dir st m =
      { st with skippedImages := st.skippedImages + 1,
                warnings := st.warnings ++ ["Skipped remote image: " ++ m.path] } := by
  simp [processImageMatch, h]

/-- An unsupported-format reference is skipped with the format warning. -/
theorem processImageMatch_unsupported (fs : FileSys) (dir : String)
    (st : MarkdownConversionResult) (m : ImgMatch) (h1 : isRemoteImage m.path = false)
    (h2 : isSupportedImageFormat m.path = false) :
    processImageMatch fs dir st m =
      { st with skippedImages := st.skippedImages + 1,
                warnings := st.warnings ++ ["Skipped unsupported image format: " ++ m.path] } := by
  simp [processImageMatch, h1, h2]

/-- A failing codec invocation is skipped with the failure warning. -/
theorem processImageMatch_codec_fail (fs : FileSys) (dir : String)
    (st : MarkdownConversionResult) (m : ImgMatch) (h1 : isRemoteImage m.path = false)
    (h2 : isSupportedImageFormat m.path = true)
    (h3 : (convertImageToBase64 fs (resolveImagePath dir m.path)).success = false) :
    processImageMatch fs dir st m =
      { st with skippedImages := st.skippedImages + 1,
                warnings := st.warnings ++
                  ["Failed to convert image: " ++ m.path ++ " - " ++
                   (convertImageToBase64 fs (resolveImagePath dir m.path)).error.getD ("undefined")] } := by
  simp only [processImageMatch, h1, h2]
  simp only [Bool.false_eq_true, if_false, Bool.not_true]
  split
  case h_1 d er heq => rw [heq] at h3; simp at h3
  case h_2 => rfl

/-- A successful codec invocation substitutes the first occurrence of the
matched snippet and counts one conversion. -/
theorem processImageMatch_success (fs : FileSys) (dir : String)
    (st : MarkdownConversionResult) (m : ImgMatch) (d : String) (er : Option String)
    (h1 : isRemoteImage m.path = false) (h2 : isSupportedImageFormat m.path = true)
    (h3 : convertImageToBase64 fs (resolveImagePath dir m.path) =
            { success := true, dataUri := some d, error := er }) :
    processImageMatch fs dir st m =
      { st with content := jsReplaceFirst st.content m.full ("![" ++ m.alt ++ "](" ++ d ++ ")"),
                convertedImages := st.convertedImages + 1 } := by
  simp [processImageMatch, h1, h2, h3]

/-- A successful codec result is a data URI of the stored bytes with the
MIME type of the extension. -/
theorem convertImageToBase64_success {fs : FileSys} {p : String}
    (h : (convertImageToBase64 fs p).success = true) :
    ∃ bytes mime, fs p = some bytes ∧ getImageMimeType p = some mime ∧
      convertImageToBase64 fs p =
        { success := true,
          dataUri := some ("data:" ++ mime ++ ";base64," ++ (⟨base64Encode bytes⟩ : String)),
          error := none } := by
  have hkey : isImageFile p = (getImageMimeType p).isSome := rfl
  simp only [convertImageToBase64] at h ⊢
  cases hfs : fs p with
  | none => simp [hfs] at h
  | some bytes =>
    cases hmt : getImageMimeType p with
    | none =>
      have hif : isImageFile p = false := by rw [hkey, hmt]; rfl
      simp [hfs, hif] at h
    | some mime =>
      have hif : isImageFile p = true := by rw [hkey, hmt]; rfl
      refine ⟨bytes, mime, rfl, rfl, ?_⟩
      rw [hif]
      simp [generateDataUriFromPath, hmt, generateDataUri]


/-! ## Rewriter loop lemmas -/

/-- Each loop iteration counts exactly one reference, as converted or as
skipped. -/
theorem processImageMatch_sum (fs : FileSys) (dir : String)
    (st : MarkdownConversionResult) (m : ImgMatch) :
    (processImageMatch fs dir st m).convertedImages +
      (processImageMatch fs dir st m).skippedImages =
      st.convertedImages + st.skippedImages + 1 := by
  cases hr : isRemoteImage m.path with
  | true =>
    rw [processImageMatch_remote fs dir st m hr]
    show st.convertedImages + (st.skippedImages + 1) = st.convertedImages + st.skippedImages + 1
    omega
  | false =>
    cases hs : isSupportedImageFormat m.path with
    | false =>
      rw [processImageMatch_unsupported fs dir st m hr hs]
      show st.convertedImages + (st.skippedImages + 1) = st.convertedImages + st.skippedImages + 1
      omega
    | true =>
      cases hc : (convertImageToBase64 fs (resolveImagePath dir m.path)).success with
      | false =>
        rw [processImageMatch_codec_fail fs dir st m hr hs hc]
        show st.convertedImages + (st.skippedImages + 1) =
          st.convertedImages + st.skippedImages + 1
        omega
      | true =>
        obtain ⟨bytes, mime, hb, hm, heq⟩ := convertImageToBase64_success hc
        rw [processImageMatch_success fs dir st m _ none hr hs heq]
        show st.convertedImages + 1 + st.skippedImages =
          st.convertedImages + st.skippedImages + 1
        omega

/-- Over a whole match list, converted plus skipped grows by the number of
matches. -/
theorem foldl_processImageMatch_sum (fs : FileSys) (dir : String) :
    ∀ (ms : List ImgMatch) (st : MarkdownConversionResult),
      (ms.foldl (processImageMatch fs dir) st).convertedImages +
        (ms.foldl (processImageMatch fs dir) st).skippedImages =
        st.convertedImages + st.skippedImages + ms.length := by
  intro ms
  induction ms with
  | nil => intro st; simp
  | cons m ms ih =>
    intro st
    simp only [List.foldl_cons, List.length_cons]
    rw [ih (processImageMatch fs dir st m), processImageMatch_sum]
    omega

/-- A match list of remote references only is skipped wholesale: one skip
and one remote warning per match, everything else unchanged. -/
theorem foldl_all_remote (fs : FileSys) (dir : String) :
    ∀ (ms : List ImgMatch) (st : MarkdownConversionResult),
      (∀ m ∈ ms, isRemoteImage m.path = true) →
      ms.foldl (processImageMatch fs dir) st =
        { st with skippedImages := st.skippedImages + ms.length,
                  warnings := st.warnings ++
                    ms.map (fun m => "Skipped remote image: " ++ m.path) } := by
  intro ms
  induction ms with
  | nil => intro st _; simp
  | cons m ms ih =>
    intro st hall
    obtain ⟨sc, scv, ssk, sw, se⟩ := st
    simp only [List.foldl_cons, List.length_cons, List.map_cons]
    rw [processImageMatch_remote fs dir _ m (hall m (List.mem_cons_self m ms))]
    rw [ih _ (fun m2 hm2 => hall m2 (List.mem_cons_of_mem m hm2))]
    simp only [MarkdownConversionResult.mk.injEq, List.append_assoc, List.singleton_append,
      true_and, and_true]
    omega




/-- The replacement text built for a successful conversion carries no
dollar character when the alt text carries none. -/
theorem repl_no_dollar {alt mime : String} (halt : '$' ∉ alt.data) (hmime : '$' ∉ mime.data)
    (bytes : ByteSeq) :
    '$' ∉ ("![" ++ alt ++ "](" ++
      ("data:" ++ mime ++ ";base64," ++ (⟨base64Encode bytes⟩ : String)) ++ ")").data := by
  simp only [String.data_append, List.mem_append, not_or]
  exact ⟨⟨⟨⟨by decide, halt⟩, by decide⟩, ⟨⟨by decide, hmime⟩, by decide⟩,
    base64Encode_no_dollar bytes⟩, by decide⟩

/-- The rewriter loop only changes the document content through data-URI
substitutions, when no alt text carries a dollar character. -/
theorem foldl_substChain (fs : FileSys) (dir : String) :
    ∀ (ms : List ImgMatch) (st : MarkdownConversionResult),
      (∀ m ∈ ms, m.full = "![" ++ m.alt ++ "](" ++ m.path ++ ")" ∧ '$' ∉ m.alt.data) →
      SubstChain st.content ((ms.foldl (processImageMatch fs dir) st).content) := by
  intro ms
  induction ms with
  | nil => intro st _; exact SubstChain.refl _
  | cons m ms ih =>
    intro st hms
    obtain ⟨hfull, halt⟩ := hms m (List.mem_cons_self m ms)
    have hrest := fun m2 hm2 => hms m2 (List.mem_cons_of_mem m hm2)
    simp only [List.foldl_cons]
    have htail := ih (processImageMatch fs dir st m) hrest
    cases hr : isRemoteImage m.path with
    | true =>
      have hstep : (processImageMatch fs dir st m).content = st.content := by
        rw [processImageMatch_remote fs dir st m hr]
      rw [hstep] at htail
      exact htail
    | false =>
      cases hs : isSupportedImageFormat m.path with
      | false =>
        have hstep : (processImageMatch fs dir st m).content = st.content := by
          rw [processImageMatch_unsupported fs dir st m hr hs]
        rw [hstep] at htail
        exact htail
      | true =>
        cases hc : (convertImageToBase64 fs (resolveImagePath dir m.path)).success with
        | false =>
          have hstep : (processImageMatch fs dir st m).content = st.content := by
            rw [processImageMatch_codec_fail fs dir st m hr hs hc]
          rw [hstep] at htail
          exact htail
        | true =>
          obtain ⟨bytes, mime, hb, hm, heq⟩ := convertImageToBase64_success hc
          have hstep : (processImageMatch fs dir st m).content =
              jsReplaceFirst st.content m.full ("![" ++ m.alt ++ "](" ++
                ("data:" ++ mime ++ ";base64," ++ (⟨base64Encode bytes⟩ : String)) ++ ")") := by
            rw [processImageMatch_success fs dir st m _ none hr hs heq]
          have hnd : '$' ∉ ("![" ++ m.alt ++ "](" ++
              ("data:" ++ mime ++ ";base64," ++ (⟨base64Encode bytes⟩ : String)) ++ ")").data :=
            repl_no_dollar halt (getImageMimeType_no_dollar hm) bytes
          rcases jsReplaceFirst_no_dollar st.content m.full _ hnd with
            hsame | ⟨b, a, hS, hN⟩
          · rw [hstep, hsame] at htail
            exact htail
          · rw [hstep] at htail
            refine SubstChain.step ?_ htail
            have e1 : st.content = (⟨b⟩ : String) ++ m.full ++ (⟨a⟩ : String) :=
              String.ext (by rw [hS]; simp [String.data_append])
            have e2 : jsReplaceFirst st.content m.full ("![" ++ m.alt ++ "](" ++
                  ("data:" ++ mime ++ ";base64," ++ (⟨base64Encode bytes⟩ : String)) ++ ")") =
                (⟨b⟩ : String) ++ ("![" ++ m.alt ++ "](" ++
                  ("data:" ++ mime ++ ";base64," ++ (⟨base64Encode bytes⟩ : String)) ++ ")") ++
                (⟨a⟩ : String) :=
              String.ext (by rw [hN]; simp [String.data_append])
            rw [e2]
            conv_lhs => rw [e1, hfull]
            exact IsImageSubst.mk (⟨b⟩ : String) m.alt m.path mime
              (⟨base64Encode bytes⟩ : String) (⟨a⟩ : String)


/-! ## Orchestrator helper lemma -/

/-- The three messages recorded for one write failure are pairwise
distinct, whatever the relative path and the underlying message. -/
theorem write_failure_messages_distinct (r e : String) :
    ("Failed to write converted file " ++ r ++ ": " ++ e) ≠
        ("Error processing file " ++ r ++ ": " ++ e) ∧
    ("Failed to write converted file " ++ r ++ ": " ++ e) ≠
        ("Failed to process file " ++ r ++ ": " ++ e) ∧
    ("Error processing file " ++ r ++ ": " ++ e) ≠
        ("Failed to process file " ++ r ++ ": " ++ e) := by
  have e1 : ("Failed to write converted file " : String).length = 31 := rfl
  have e2 : ("Error processing file " : String).length = 22 := rfl
  have e3 : ("Failed to process file " : String).length = 23 := rfl
  refine ⟨fun h => ?_, fun h => ?_, fun h => ?_⟩ <;>
  · have hlen := congrArg String.length h
    simp only [String.length_append, e1, e2, e3] at hlen
    omega


/-! ## Claims about the orchestrator -/

/-- C1 counterexample: one discovered file, a rewrite that converted one
image, a write step that throws.  The failure is recorded with the relative
path and message and the run finishes, but the file still contributes one
converted image to the aggregate, so the contributes-nothing part of the
claim is false for write failures. -/
theorem c1_counterexample :
    convert envWriteFails =
      { totalFiles := 1, convertedImages := 1, skippedImages := 0, warnings := [],
        errors := ["Failed to write converted file a.md: disk full",
                   "Error processing file a.md: disk full",
                   "Failed to process file a.md: disk full"] } ∧
    (convert envWriteFails).convertedImages ≠ 0 := by
  constructor
  · decide
  · decide

/-- C1 (amended): a per-file rewrite or write failure is recorded in the
aggregate errors with the file relative path and the underlying message and
the loop continues with the remaining files; a rewrite failure contributes
nothing to the counts, while a write failure happens after the per-document
counts and diagnostics were already accumulated. -/
theorem c1_per_file_failure_recorded (env : ConvEnv) (f : IMarkdownFile)
    (fs : List IMarkdownFile) (agg : IConvertResult) :
    (∀ e, env.rewrite f = Except.error e →
      convertLoop env (f :: fs) agg =
        convertLoop env fs
          { agg with errors := agg.errors ++
              ["Error processing file " ++ f.relativePath ++ ": " ++ e,
               "Failed to process file " ++ f.relativePath ++ ": " ++ e] }) ∧
    (∀ conv e, env.rewrite f = Except.ok conv →
      env.write f.relativePath conv.content = Except.error e →
      convertLoop env (f :: fs) agg =
        convertLoop env fs
          { agg with
            convertedImages := agg.convertedImages + conv.convertedImages,
            skippedImages := agg.skippedImages + conv.skippedImages,
            warnings := agg.warnings ++ conv.warnings,
            errors := agg.errors ++ conv.errors ++
              ["Failed to write converted file " ++ f.relativePath ++ ": " ++ e,
               "Error processing file " ++ f.relativePath ++ ": " ++ e,
               "Failed to process file " ++ f.relativePath ++ ": " ++ e] }) := by
  obtain ⟨t, cv, sk, w, er⟩ := agg
  constructor
  · intro e he
    simp only [convertLoop, processMarkdownFile, he]
    congr 1
    simp [IConvertResult.mk.injEq, List.append_assoc]
  · intro conv e hok hw
    simp only [convertLoop, processMarkdownFile, hok, hw]
    congr 1
    simp [IConvertResult.mk.injEq, List.append_assoc]

/-- C1 witness at a concrete environment with a failing write step. -/
theorem c1_witness :
    convertLoop envWriteFails [fileA]
      { totalFiles := 1, convertedImages := 0, skippedImages := 0, warnings := [], errors := [] } =
    convertLoop envWriteFails []
      { totalFiles := 1, convertedImages := 1, skippedImages := 0, warnings := [],
        errors := ["Failed to write converted file a.md: disk full",
                   "Error processing file a.md: disk full",
                   "Failed to process file a.md: disk full"] } :=
  (c1_per_file_failure_recorded envWriteFails fileA []
      { totalFiles := 1, convertedImages := 0, skippedImages := 0, warnings := [], errors := [] }).2
    { content := "x", convertedImages := 1, skippedImages := 0, warnings := [], errors := [] }
    ("disk full") rfl rfl


/-- C6: once per-file processing has begun, a per-file exception from the
rewrite or write step is recorded into the aggregate error list, the loop
continues with the remaining files, and whenever the scan and preparation
phases succeed the run is the full loop over every discovered file, never
an aborted state. -/
theorem c6_per_file_error_never_aborts (env : ConvEnv) (f : IMarkdownFile)
    (fs : List IMarkdownFile) (agg : IConvertResult) (e : String)
    (h : (processMarkdownFile env f agg).2 = Except.error e) :
    (("Error processing file " ++ f.relativePath ++ ": " ++ e) ∈
        (processMarkdownFile env f agg).1.errors) ∧
    convertLoop env (f :: fs) agg =
      convertLoop env fs
        { (processMarkdownFile env f agg).1 with
          errors := (processMarkdownFile env f agg).1.errors ++
            ["Failed to process file " ++ f.relativePath ++ ": " ++ e] } ∧
    (∀ files, env.scan = Except.ok files → files ≠ [] →
      env.createOutputDirectory = Except.ok () →
      convert env = convertLoop env files
        { totalFiles := files.length, convertedImages := 0, skippedImages := 0,
          warnings := [], errors := [] }) := by
  refine ⟨?_, ?_, ?_⟩
  · cases hr : env.rewrite f with
    | error e2 =>
      simp only [processMarkdownFile, hr] at h ⊢
      cases h
      simp
    | ok conv =>
      cases hw : env.write f.relativePath conv.content with
      | error e2 =>
        simp only [processMarkdownFile, hr, hw] at h ⊢
        cases h
        simp
      | ok u =>
        simp only [processMarkdownFile, hr, hw] at h
        cases h
  · cases hp : processMarkdownFile env f agg with
    | mk r ex =>
      rw [hp] at h
      simp only at h
      cases ex with
      | ok c => cases h
      | error e2 =>
        cases h
        simp only [convertLoop, hp]
  · intro files hscan hne hdir
    have hlen : files.length ≠ 0 := fun h0 => hne (List.eq_nil_of_length_eq_zero h0)
    simp only [convert, hscan, hdir, if_neg hlen]


/-- C6 witness at a concrete environment with a failing write step. -/
theorem c6_witness :
    ("Error processing file a.md: disk full") ∈
      (processMarkdownFile envWriteFails fileA
        { totalFiles := 1, convertedImages := 0, skippedImages := 0,
          warnings := [], errors := [] }).1.errors :=
  (c6_per_file_error_never_aborts envWriteFails fileA []
    { totalFiles := 1, convertedImages := 0, skippedImages := 0, warnings := [], errors := [] }
    ("disk full") rfl).1

/-- C10: a write failure appends exactly three pairwise-distinct error
entries for the single failure, beyond the per-document errors, so the
error list can grow by more than one entry per failed file. -/
theorem c10_write_failure_three_errors (env : ConvEnv) (f : IMarkdownFile)
    (result : IConvertResult) (conv : MarkdownConversionResult) (e : String)
    (h1 : env.rewrite f = Except.ok conv)
    (h2 : env.write f.relativePath conv.content = Except.error e) :
    convertLoop env [f] result =
      { result with
        convertedImages := result.convertedImages + conv.convertedImages,
        skippedImages := result.skippedImages + conv.skippedImages,
        warnings := result.warnings ++ conv.warnings,
        errors := result.errors ++ conv.errors ++
          ["Failed to write converted file " ++ f.relativePath ++ ": " ++ e,
           "Error processing file " ++ f.relativePath ++ ": " ++ e,
           "Failed to process file " ++ f.relativePath ++ ": " ++ e] } ∧
    ("Failed to write converted file " ++ f.relativePath ++ ": " ++ e) ≠
      ("Error processing file " ++ f.relativePath ++ ": " ++ e) ∧
    ("Failed to write converted file " ++ f.relativePath ++ ": " ++ e) ≠
      ("Failed to process file " ++ f.relativePath ++ ": " ++ e) ∧
    ("Error processing file " ++ f.relativePath ++ ": " ++ e) ≠
      ("Failed to process file " ++ f.relativePath ++ ": " ++ e) ∧
    (convertLoop env [f] result).errors.length =
      result.errors.length + conv.errors.length + 3 := by
  obtain ⟨t, cv, sk, w, er⟩ := result
  have hd := write_failure_messages_distinct f.relativePath e
  refine ⟨?_, hd.1, hd.2.1, hd.2.2, ?_⟩
  · simp only [convertLoop, processMarkdownFile, h1, h2]
    congr 1
    simp [IConvertResult.mk.injEq, List.append_assoc]
  · simp only [convertLoop, processMarkdownFile, h1, h2]
    simp [List.length_append]
    omega


/-- C10 witness at a concrete environment with a failing write step. -/
theorem c10_witness :
    convertLoop envWriteFails [fileA]
      { totalFiles := 1, convertedImages := 0, skippedImages := 0, warnings := [], errors := [] } =
      { totalFiles := 1, convertedImages := 1, skippedImages := 0, warnings := [],
        errors := ["Failed to write converted file a.md: disk full",
                   "Error processing file a.md: disk full",
                   "Failed to process file a.md: disk full"] } ∧
    (convertLoop envWriteFails [fileA]
      { totalFiles := 1, convertedImages := 0, skippedImages := 0, warnings := [],
        errors := [] }).errors.length = 3 :=
  have h := c10_write_failure_three_errors envWriteFails fileA
    { totalFiles := 1, convertedImages := 0, skippedImages := 0, warnings := [], errors := [] }
    { content := "x", convertedImages := 1, skippedImages := 0, warnings := [], errors := [] }
    ("disk full") rfl rfl
  ⟨h.1, h.2.2.2.2⟩

/-! ## Claims about the rewriter and the codec -/

/-- C2 counterexample: a document with one remote reference has zero
local-candidate references, yet converted plus skipped is one, because the
remote reference is counted as skipped. -/
theorem c2_counterexample :
    (convertMarkdownImages fsEmpty ("![r](http://x/a.png)") ("/d/doc.md")).convertedImages +
      (convertMarkdownImages fsEmpty ("![r](http://x/a.png)") ("/d/doc.md")).skippedImages = 1 ∧
    (extractImageReferences ("![r](http://x/a.png)") ("/d/doc.md")).length = 0 ∧
    (convertMarkdownImages fsEmpty ("![r](http://x/a.png)") ("/d/doc.md")).convertedImages +
        (convertMarkdownImages fsEmpty ("![r](http://x/a.png)") ("/d/doc.md")).skippedImages ≠
      (extractImageReferences ("![r](http://x/a.png)") ("/d/doc.md")).length := by
  decide

/-- C2 (amended): per document, converted plus skipped equals the total
number of image references found, remote ones included; a remote reference
is counted as skipped and recorded as a skip warning with the
distinguishing remote message. -/
theorem c2_sum_counts_all_references (fs : FileSys) (content markdownFilePath : String) :
    (convertMarkdownImages fs content markdownFilePath).convertedImages +
      (convertMarkdownImages fs content markdownFilePath).skippedImages =
      (extractMatches content).length ∧
    (∀ (fs2 : FileSys) (dir : String) (st : MarkdownConversionResult) (m : ImgMatch),
      isRemoteImage m.path = true →
      processImageMatch fs2 dir st m =
        { st with skippedImages := st.skippedImages + 1,
                  warnings := st.warnings ++ ["Skipped remote image: " ++ m.path] }) := by
  constructor
  · unfold convertMarkdownImages
    rw [foldl_processImageMatch_sum]
    simp
  · exact fun fs2 dir st m h => processImageMatch_remote fs2 dir st m h

/-- C2 witness at a concrete mixed document and a concrete remote match. -/
theorem c2_witness :
    (convertMarkdownImages fsEmpty ("![r](http://x/a.png) ![a](./b.png)")
        ("/d/doc.md")).convertedImages +
      (convertMarkdownImages fsEmpty ("![r](http://x/a.png) ![a](./b.png)")
        ("/d/doc.md")).skippedImages =
      (extractMatches ("![r](http://x/a.png) ![a](./b.png)")).length ∧
    processImageMatch fsEmpty ("/d")
      { content := "", convertedImages := 0, skippedImages := 0, warnings := [], errors := [] }
      { full := "![r](http://x/a.png)", alt := "r", path := "http://x/a.png" } =
      { content := "", convertedImages := 0, skippedImages := 1,
        warnings := ["Skipped remote image: http://x/a.png"], errors := [] } :=
  ⟨(c2_sum_counts_all_references fsEmpty ("![r](http://x/a.png) ![a](./b.png)")
      ("/d/doc.md")).1,
   (c2_sum_counts_all_references fsEmpty ("") ("")).2 fsEmpty ("/d")
      { content := "", convertedImages := 0, skippedImages := 0, warnings := [], errors := [] }
      { full := "![r](http://x/a.png)", alt := "r", path := "http://x/a.png" } (by decide)⟩


/-- C3 counterexample: an ftp-scheme path is not classified as remote, and
the rewriter skips it through the codec-failure branch rather than the
remote branch, so ftp is not recognized as a networked scheme. -/
theorem c3_counterexample :
    isRemoteImage ("ftp://h/a.png") = false ∧
    (convertMarkdownImages fsEmpty ("![r](ftp://h/a.png)") ("/d/doc.md")).warnings =
      ["Failed to convert image: ftp://h/a.png - Image file not found or not readable: /d/ftp:/h/a.png"] := by
  decide

/-- C3 (amended): a path is classified remote exactly when it starts with
the http or https scheme; an ftp-scheme reference is not remote and falls
through to the format and codec checks, where it is skipped with a
conversion-failure warning when no matching local file exists. -/
theorem c3_remote_exactly_http_https :
    (∀ p : String, isRemoteImage p = true ↔
      (("http://").data.isPrefixOf p.data = true ∨
        ("https://").data.isPrefixOf p.data = true)) ∧
    isRemoteImage ("ftp://h/a.png") = false ∧
    (convertMarkdownImages fsEmpty ("![r](ftp://h/a.png)") ("/d/doc.md")).convertedImages = 0 ∧
    (convertMarkdownImages fsEmpty ("![r](ftp://h/a.png)") ("/d/doc.md")).skippedImages = 1 ∧
    (convertMarkdownImages fsEmpty ("![r](ftp://h/a.png)") ("/d/doc.md")).content =
      "![r](ftp://h/a.png)" := by
  refine ⟨?_, by decide, by decide, by decide, by decide⟩
  intro p
  simp [isRemoteImage]

/-- C4 counterexample: JavaScript String.replace expands a dollar-ampersand
pattern in the replacement, so an alt text containing it yields a
substituted occurrence that is not of the exact claimed form: the alt is
replaced by the whole original snippet instead of being preserved. -/
theorem c4_counterexample :
    (convertMarkdownImages fsPngA ("![$&](./a.png)") ("/d/doc.md")).content =
      "![![$&](./a.png)](data:image/png;base64,)" ∧
    (convertMarkdownImages fsPngA ("![$&](./a.png)") ("/d/doc.md")).content ≠
      "![$&](data:image/png;base64,)" := by
  decide

/-- C4 (amended): for a document without a dollar character, the rewritten
content arises from the source by a chain of substitutions, each replacing
one image-syntax span by its data-URI form with the same alt text and
leaving all other bytes unchanged. -/
theorem c4_rewrite_is_substitution_chain (fs : FileSys) (content markdownFilePath : String)
    (h : '$' ∉ content.data) :
    SubstChain content (convertMarkdownImages fs content markdownFilePath).content := by
  unfold convertMarkdownImages
  exact foldl_substChain fs (dirname markdownFilePath) (extractMatches content)
    { content := content, convertedImages := 0, skippedImages := 0, warnings := [], errors := [] }
    (fun m hm => ⟨(extractMatches_facts hm).1, fun hd => h ((extractMatches_facts hm).2 hd)⟩)

/-- C4 witness at a concrete document and file system. -/
theorem c4_witness :
    SubstChain ("![a](./a.png)")
      (convertMarkdownImages fsPngA ("![a](./a.png)") ("/d/doc.md")).content :=
  c4_rewrite_is_substitution_chain fsPngA ("![a](./a.png)") ("/d/doc.md") (by decide)

/-- C5 counterexample: a document whose only reference uses the ftp scheme
is converted, not skipped, when a local file exists at the strange resolved
path, because ftp is not classified as remote. -/
theorem c5_counterexample :
    (convertMarkdownImages fsFtp ("![r](ftp://h/a.png)") ("/d/doc.md")).convertedImages = 1 ∧
    (convertMarkdownImages fsFtp ("![r](ftp://h/a.png)") ("/d/doc.md")).skippedImages = 0 ∧
    (convertMarkdownImages fsFtp ("![r](ftp://h/a.png)") ("/d/doc.md")).content ≠
      "![r](ftp://h/a.png)" := by
  decide

/-- C5 (amended): for a document whose references all use the http or
https scheme, nothing is converted, every reference is counted as skipped,
and the content is returned unchanged. -/
theorem c5_all_remote_unchanged (fs : FileSys) (content markdownFilePath : String)
    (h : ∀ m ∈ extractMatches content, isRemoteImage m.path = true) :
    (convertMarkdownImages fs content markdownFilePath).convertedImages = 0 ∧
    (convertMarkdownImages fs content markdownFilePath).skippedImages =
      (extractMatches content).length ∧
    (convertMarkdownImages fs content markdownFilePath).content = content := by
  unfold convertMarkdownImages
  rw [foldl_all_remote fs (dirname markdownFilePath) (extractMatches content) _ h]
  refine ⟨rfl, ?_, rfl⟩
  show 0 + (extractMatches content).length = (extractMatches content).length
  omega

/-- C5 witness at a concrete document with two remote references. -/
theorem c5_witness :
    (convertMarkdownImages fsEmpty ("![r](https://x/y.png) ![q](http://a/b.gif)")
        ("/d/doc.md")).convertedImages = 0 ∧
    (convertMarkdownImages fsEmpty ("![r](https://x/y.png) ![q](http://a/b.gif)")
        ("/d/doc.md")).skippedImages =
      (extractMatches ("![r](https://x/y.png) ![q](http://a/b.gif)")).length ∧
    (convertMarkdownImages fsEmpty ("![r](https://x/y.png) ![q](http://a/b.gif)")
        ("/d/doc.md")).content = "![r](https://x/y.png) ![q](http://a/b.gif)" :=
  c5_all_remote_unchanged fsEmpty ("![r](https://x/y.png) ![q](http://a/b.gif)")
    ("/d/doc.md") (by decide)


/-- C7: for every path whose extension the codec supports, encoding a
non-empty byte buffer yields a data URI of the expected MIME type whose
base64 payload decodes back to the original bytes. -/
theorem c7_data_uri_roundtrip (filePath mime : String)
    (hm : getImageMimeType filePath = some mime) (bytes : ByteSeq)
    (hne : bytes ≠ []) (hb : ∀ b ∈ bytes, b < 256) :
    ∃ payload : String,
      generateDataUriFromPath bytes filePath =
        some ("data:" ++ mime ++ ";base64," ++ payload) ∧
      base64Decode payload.data = bytes := by
  refine ⟨(⟨base64Encode bytes⟩ : String), ?_, base64_decode_encode bytes hb⟩
  simp [generateDataUriFromPath, hm, generateDataUri]

/-- C7 witness at a concrete png path and byte buffer. -/
theorem c7_witness :
    ∃ payload : String,
      generateDataUriFromPath [77, 97, 110] ("photo.png") =
        some ("data:" ++ ("image/png") ++ ";base64," ++ payload) ∧
      base64Decode payload.data = [77, 97, 110] :=
  c7_data_uri_roundtrip ("photo.png") ("image/png") (by decide) [77, 97, 110]
    (by decide) (by decide)


/-- C8: a local reference carrying a query suffix is passed to the codec
uncleaned, so the existence check misses the file stored at the cleaned
path: the reference is skipped with a conversion-failure warning and never
converted, even though the codec succeeds on the cleaned path itself. -/
theorem c8_suffixed_path_misses_file (fs : FileSys) (bytes : ByteSeq)
    (h1 : fs ("/d/img.png?v=1") = none) (h2 : fs ("/d/img.png") = some bytes) :
    convertMarkdownImages fs ("![a](./img.png?v=1)") ("/d/doc.md") =
      { content := "![a](./img.png?v=1)", convertedImages := 0, skippedImages := 1,
        warnings := ["Failed to convert image: ./img.png?v=1 - Image file not found or not readable: /d/img.png?v=1"],
        errors := [] } ∧
    (convertImageToBase64 fs ("/d/img.png")).success = true := by
  have hc : convertImageToBase64 fs (resolveImagePath (dirname ("/d/doc.md"))
      ("./img.png?v=1")) =
      { success := false, dataUri := none,
        error := some ("Image file not found or not readable: /d/img.png?v=1") } := by
    rw [show resolveImagePath (dirname ("/d/doc.md")) ("./img.png?v=1") =
      ("/d/img.png?v=1") from rfl]
    simp [convertImageToBase64, h1]
  constructor
  · unfold convertMarkdownImages
    rw [show extractMatches ("![a](./img.png?v=1)") =
      [{ full := "![a](./img.png?v=1)", alt := "a", path := "./img.png?v=1" }] from by decide]
    simp only [List.foldl_cons, List.foldl_nil]
    rw [processImageMatch_codec_fail _ _ _ _ (by decide) (by decide)
      (by show (convertImageToBase64 fs (resolveImagePath (dirname ("/d/doc.md"))
        ("./img.png?v=1"))).success = false; rw [hc])]
    rw [hc]
    decide
  · have hi : isImageFile ("/d/img.png") = true := by decide
    have hmt : getImageMimeType ("/d/img.png") = some ("image/png") := by decide
    simp [convertImageToBase64, h2, hi, generateDataUriFromPath, hmt]


/-- C8 witness at a concrete file system holding the cleaned path only. -/
theorem c8_witness :
    convertMarkdownImages fsCleanPng ("![a](./img.png?v=1)") ("/d/doc.md") =
      { content := "![a](./img.png?v=1)", convertedImages := 0, skippedImages := 1,
        warnings := ["Failed to convert image: ./img.png?v=1 - Image file not found or not readable: /d/img.png?v=1"],
        errors := [] } ∧
    (convertImageToBase64 fsCleanPng ("/d/img.png")).success = true :=
  c8_suffixed_path_misses_file fsCleanPng [7] (by decide) (by decide)

/-- C9: the rewriter accepts exactly the seven extensions of its own
whitelist; an ico, tiff or tif reference is skipped as unsupported even
though the codec supports those extensions and encodes such a file
successfully. -/
theorem c9_rewriter_rejects_codec_supported_formats :
    (∀ ext ∈ ([".ico", ".tiff", ".tif"] : List String),
      isSupportedImageFormat ("img" ++ ext) = false ∧ isImageFile ("img" ++ ext) = true) ∧
    (∀ ext ∈ supportedFormatExtensions, isSupportedImageFormat ("img" ++ ext) = true) ∧
    supportedFormatExtensions = [".jpg", ".jpeg", ".png", ".gif", ".svg", ".webp", ".bmp"] ∧
    convertMarkdownImages fsIco ("![i](./img.ico)") ("/d/doc.md") =
      { content := "![i](./img.ico)", convertedImages := 0, skippedImages := 1,
        warnings := ["Skipped unsupported image format: ./img.ico"], errors := [] } ∧
    convertImageToBase64 fsIco ("/d/img.ico") =
      { success := true, dataUri := some ("data:image/x-icon;base64,"), error := none } := by
  decide
